import Mathlib

/-!
# Verification of the mollymon message store and reporting pipeline

Shallow embedding of `src/mollymon/contact.py` (the SQLite-backed message
store `DAO`), `src/mollymon/logstats/access.py` and
`src/mollymon/logstats/error.py` (the log-file parsers), and
`src/mollymon/report.py` (the report assembler), together with theorems
settling the specification claims about them.

Modelling conventions:
* Timestamps are modelled as `Nat`.  The store formats timestamps with
  `strftime('%Y-%m-%d %H:%M:%S')` before comparing them as SQLite TEXT,
  and lexicographic order on that fixed-width format agrees with
  chronological order at second precision, so a linearly ordered `Nat`
  is an order-faithful model.
* The `messages` table is a `List Message`; SQLite's implicit `rowid` of
  a row in this append-only table (the subsystem never deletes) is its
  1-based position, assigned sequentially at insertion.
* SQL semantics used: `x BETWEEN a AND b` is `a ≤ x ∧ x ≤ b` (both ends
  inclusive), `>`/`<` are strict, `=` is equality, `COUNT(*)` counts the
  rows matched by the same WHERE clause the plain SELECT uses.
-/

namespace Mollymon

/-- One row of the `messages` table, per `DAO.SCHEMA`
(`contact.py` lines 30–38): all columns NOT NULL, absence of a value is
the empty string, `read` is an INTEGER used as a boolean flag. -/
structure Message where
  script_path : String
  path_info : String
  tls_client_hash : String
  ip_addr : String
  time : Nat
  message : String
  read : Bool
deriving Repr, DecidableEq

/-- The optional filters accepted by `DAO.select_query`
(`contact.py` lines 61–63), minus `rowid` which is passed separately
(the Python code treats an empty `rowid` list like an absent one). -/
structure Filters where
  script_path : Option String
  path_info : Option String
  tls_client_hash : Option String
  ip_addr : Option String
  since : Option Nat
  untl : Option Nat
  read : Option Bool
deriving Repr, DecidableEq

/-- No filters: every argument of `select_query` left at its `None`
default. -/
def noFilters : Filters := ⟨none, none, none, none, none, none, none⟩

/-- The time constraint that `select_query` puts in the WHERE clause
(`contact.py` lines 89–97): both bounds present gives
`time BETWEEN ? AND ?` (inclusive), `since` alone gives `time > ?`
(strict), `until` alone gives `time < ?` (strict). -/
def timeFilter (since untl : Option Nat) (t : Nat) : Bool :=
  match since, untl with
  | some s, some u => decide (s ≤ t) && decide (t ≤ u)
  | some s, none => decide (s < t)
  | none, some u => decide (t < u)
  | none, none => true

/-- The full WHERE clause built by `DAO.select_query`
(`contact.py` lines 83–119) as a predicate on a `(rowid, row)` pair:
the conjunction of the time constraint, one equality constraint per
present field filter, and — when the `rowid` list is non-empty — a
`rowid IN (...)` membership constraint. -/
def select_filter (f : Filters) (rowid : List Nat) (r : Nat × Message) : Bool :=
  timeFilter f.since f.untl r.2.time &&
  (match f.script_path with
   | none => true
   | some v => r.2.script_path == v) &&
  (match f.path_info with
   | none => true
   | some v => r.2.path_info == v) &&
  (match f.tls_client_hash with
   | none => true
   | some v => r.2.tls_client_hash == v) &&
  (match f.ip_addr with
   | none => true
   | some v => r.2.ip_addr == v) &&
  (match f.read with
   | none => true
   | some v => r.2.read == v) &&
  (match rowid with
   | [] => true
   | _ => rowid.contains r.1)

/-- The rows of the table paired with their rowids, starting from `n`.
SQLite assigns rowids sequentially in this append-only table, so the
rowid of a row is its 1-based position. -/
def rowsFrom (n : Nat) : List Message → List (Nat × Message)
  | [] => []
  | m :: ms => (n, m) :: rowsFrom (n + 1) ms

/-- `SELECT rowid, * FROM "messages"`: every row paired with its rowid. -/
def rowsWithIds (db : List Message) : List (Nat × Message) :=
  rowsFrom 1 db

/-- `DAO.get_messages` (`contact.py` lines 137–139): runs the SELECT
built by `select_query` with the given filters (no `rowid` argument)
and fetches all matching rows. -/
def get_messages (f : Filters) (db : List Message) : List (Nat × Message) :=
  (rowsWithIds db).filter (select_filter f [])

/-- `DAO.count_messages` (`contact.py` lines 141–143): runs
`SELECT COUNT(*)` with the WHERE clause built by `select_query` from the
same filters and fetches the count. -/
def count_messages (f : Filters) (db : List Message) : Nat :=
  (rowsWithIds db).countP (select_filter f [])

/-- `DAO.select_query` invoked with only the `rowid` filter: reading
rows back by their row identifiers. -/
def select_by_rowid (ids : List Nat) (db : List Message) : List (Nat × Message) :=
  (rowsWithIds db).filter (select_filter noFilters ids)

/-- `DAO.add_message` (`contact.py` lines 133–135): INSERTs a new row
with the given field values and `read = 0`. -/
def add_message (db : List Message) (sp pi tls ip : String) (t : Nat) (msg : String) :
    List Message :=
  db ++ [⟨sp, pi, tls, ip, t, msg, false⟩]

/-! ## C1: time-filter asymmetry of the message store -/

/-- C1: Message-store time filters are asymmetric: for every store state
and timestamps `t`, `t1`, `t2` with `t1 < t2`, a query with only
`since = t` returns no message whose time equals `t` (strictly-greater
comparison), a query with only `until = t` returns no message whose time
equals `t` (strictly-less comparison), and a query with both
`since = t1` and `until = t2` returns exactly the stored messages whose
time satisfies `t1 ≤ time ≤ t2`, both boundaries included. -/
theorem store_time_filter_asymmetry (db : List Message) (t t1 t2 : Nat)
    (h : t1 < t2) :
    (∀ r ∈ get_messages { noFilters with since := some t } db, r.2.time ≠ t) ∧
    (∀ r ∈ get_messages { noFilters with untl := some t } db, r.2.time ≠ t) ∧
    get_messages { noFilters with since := some t1, untl := some t2 } db =
      (rowsWithIds db).filter (fun r => decide (t1 ≤ r.2.time) && decide (r.2.time ≤ t2)) := by
  refine ⟨?_, ?_, ?_⟩
  · intro r hr
    have hp := (List.mem_filter.mp hr).2
    simp only [select_filter, timeFilter, noFilters, Bool.and_eq_true, decide_eq_true_eq] at hp
    omega
  · intro r hr
    have hp := (List.mem_filter.mp hr).2
    simp only [select_filter, timeFilter, noFilters, Bool.and_eq_true, decide_eq_true_eq] at hp
    omega
  · unfold get_messages
    congr 1
    funext r
    simp [select_filter, timeFilter, noFilters]

/-- Witness for C1 at a concrete store state and concrete bounds. -/
theorem store_time_filter_asymmetry_witness :
    (∀ r ∈ get_messages { noFilters with since := some 5 }
        [⟨"/a", "", "", "1.2.3.4", 5, "hello", false⟩], r.2.time ≠ 5) ∧
    (∀ r ∈ get_messages { noFilters with untl := some 5 }
        [⟨"/a", "", "", "1.2.3.4", 5, "hello", false⟩], r.2.time ≠ 5) ∧
    get_messages { noFilters with since := some 3, untl := some 7 }
        [⟨"/a", "", "", "1.2.3.4", 5, "hello", false⟩] =
      (rowsWithIds [⟨"/a", "", "", "1.2.3.4", 5, "hello", false⟩]).filter
        (fun r => decide (3 ≤ r.2.time) && decide (r.2.time ≤ 7)) := by
  have h := store_time_filter_asymmetry
    [⟨"/a", "", "", "1.2.3.4", 5, "hello", false⟩] 5 3 7 (by decide)
  exact h

/-! ## C2: count agrees with query length -/

/-- C2: For every store state and every combination of the filters
`script_path`, `path_info`, `tls_client_hash`, `ip_addr`, `since`,
`until`, and `read` (each present or omitted), `count_messages` with
those filters returns exactly the length of the list returned by
`get_messages` with the same filters: both are built from the same
WHERE clause. -/
theorem count_messages_eq_length_get_messages (f : Filters) (db : List Message) :
    count_messages f db = (get_messages f db).length := by
  unfold count_messages get_messages
  exact List.countP_eq_length_filter _ _

/-! ## C5: insert/read-back round trip -/

theorem rowsFrom_append (l : List Message) (x : Message) (n : Nat) :
    rowsFrom n (l ++ [x]) = rowsFrom n l ++ [(n + l.length, x)] := by
  induction l generalizing n with
  | nil => simp [rowsFrom]
  | cons m ms ih =>
    show (n, m) :: rowsFrom (n + 1) (ms ++ [x]) =
      ((n, m) :: rowsFrom (n + 1) ms) ++ [(n + (ms.length + 1), x)]
    rw [ih]
    have harith : n + 1 + ms.length = n + (ms.length + 1) := by omega
    rw [harith]
    rfl

theorem fst_lt_of_mem_rowsFrom {r : Nat × Message} {l : List Message} {n : Nat}
    (h : r ∈ rowsFrom n l) : r.1 < n + l.length := by
  induction l generalizing n with
  | nil => simp [rowsFrom] at h
  | cons m ms ih =>
    simp only [rowsFrom, List.mem_cons] at h
    rcases h with h | h
    · subst h
      simp only [List.length_cons]
      omega
    · have := ih h
      simp only [List.length_cons]
      omega

/-- C5: Round-trip: for every store state and message field values,
inserting the message and reading it back by its row identifier (the
next sequential rowid) yields exactly one row, carrying exactly the
field values that were inserted — empty-string fields included, since
they are stored verbatim as TEXT — with the `read` flag false. -/
theorem insert_roundtrip (db : List Message) (sp pinfo tls ip : String)
    (t : Nat) (msg : String) :
    select_by_rowid [db.length + 1] (add_message db sp pinfo tls ip t msg) =
      [(db.length + 1, ⟨sp, pinfo, tls, ip, t, msg, false⟩)] := by
  have heq : 1 + db.length = db.length + 1 := by omega
  unfold select_by_rowid add_message rowsWithIds
  rw [rowsFrom_append, heq, List.filter_append]
  have h1 : (rowsFrom 1 db).filter (select_filter noFilters [db.length + 1]) = [] := by
    rw [List.filter_eq_nil_iff]
    intro r hr
    have hlt : r.1 < 1 + db.length := fst_lt_of_mem_rowsFrom hr
    have hne : r.1 ≠ db.length + 1 := by omega
    simp [select_filter, noFilters, timeFilter, hne]
  rw [h1, List.nil_append]
  have h2 : select_filter noFilters [db.length + 1]
      (db.length + 1, Message.mk sp pinfo tls ip t msg false) = true := by
    simp [select_filter, noFilters, timeFilter]
  simp [List.filter, h2]

/-! ## C4: mark_read -/

/-- Failure modes of running a statement on the SQLite cursor. -/
inductive SqlError where
  | operationalError
deriving Repr, DecidableEq

/-- `DAO.MARK_READ_MULTI` (`contact.py` line 48), verbatim. -/
def MARK_READ_MULTI : String := "UPDATE \"messages\" SET read=1 WHERE rowid in "

/-- The statement `DAO.mark_read` builds for more than one rowid
(`contact.py` line 148): `MARK_READ_MULTI + ', '.join('?' * len(rowid))`. -/
def mark_read_multi_sql (n : Nat) : String :=
  MARK_READ_MULTI ++ String.intercalate ", " (List.replicate n "?")

/-- `DAO.mark_read` (`contact.py` lines 145–151).  With no rowids,
neither branch fires and only `commit` runs: a no-op.  With one rowid it
runs `UPDATE "messages" SET read=1 WHERE rowid=?`.  With more than one
rowid it builds `mark_read_multi_sql`, whose `WHERE rowid in ?, ?`
lacks the parenthesized value list SQLite's grammar requires after
`IN`, so `cursor.execute` raises `sqlite3.OperationalError`. -/
def mark_read (ids : List Nat) (db : List Message) : Except SqlError (List Message) :=
  match ids with
  | [] => Except.ok db
  | [i] =>
    Except.ok ((rowsWithIds db).map fun r =>
      if r.1 == i then { r.2 with read := true } else r.2)
  | _ => Except.error SqlError.operationalError

/-- C4 (refuting theorem): the empty mark-read call is indeed a no-op,
but marking two freshly inserted messages read by their full identifier
set fails: the statement `mark_read` builds for two rowids is exactly
`UPDATE "messages" SET read=1 WHERE rowid in ?, ?`, which contains no
parenthesized `IN` list at all, and executing it raises an operational
error instead of updating the rows. -/
theorem mark_read_multi_invalid_sql :
    mark_read_multi_sql 2 = "UPDATE \"messages\" SET read=1 WHERE rowid in ?, ?" ∧
    (mark_read_multi_sql 2).data.contains '(' = false ∧
    mark_read [1, 2]
        (add_message (add_message [] "/a" "" "" "ip1" 1 "m1") "/b" "" "" "ip2" 2 "m2") =
      Except.error SqlError.operationalError ∧
    mark_read []
        (add_message (add_message [] "/a" "" "" "ip1" 1 "m1") "/b" "" "" "ip2" 2 "m2") =
      Except.ok
        (add_message (add_message [] "/a" "" "" "ip1" 1 "m1") "/b" "" "" "ip2" 2 "m2") := by
  refine ⟨rfl, by decide, rfl, rfl⟩

/-! ## Log records and file-level parsing (`logstats/access.py`, `logstats/error.py`) -/

/-- One parsed access-log record: the tuple returned by
`access.parse_line` (`access.py` lines 43–53) — timestamp, source IP,
response code, the five URI components, and the raw request body. -/
structure AccessRecord where
  date_time : Nat
  ip_addr : String
  resp_code : Nat
  netloc : String
  path : String
  params : String
  query : String
  fragment : String
  request_body : String
deriving Repr, DecidableEq

/-- One parsed error-log record: the pair returned by
`error.parse_line` (`error.py` lines 25–28) — timestamp and message. -/
structure ErrorRecord where
  date_time : Nat
  err_msg : String
deriving Repr, DecidableEq

/-- The record-retention test shared verbatim by both file parsers
(`access.py` lines 69–72, `error.py` lines 45–48): a record is skipped
when `since` is given and `data[0] <= since`, or when `until` is given
and `data[0] >= until`; it is kept otherwise. -/
def keepRecord (since untl : Option Nat) (t : Nat) : Bool :=
  !(match since with
    | some s => decide (t ≤ s)
    | none => false) &&
  !(match untl with
    | some u => decide (u ≤ t)
    | none => false)

/-- The retention step of `access.parse_file` (`access.py` lines 66–74)
applied to the per-line parse results: rows whose skip test fires are
dropped, the rest are appended in order. -/
def access_parse_records (rows : List AccessRecord) (since untl : Option Nat) :
    List AccessRecord :=
  rows.filter fun r => keepRecord since untl r.date_time

/-- The retention step of `error.parse_file` (`error.py` lines 41–50)
applied to the per-line parse results. -/
def error_parse_records (rows : List ErrorRecord) (since untl : Option Nat) :
    List ErrorRecord :=
  rows.filter fun r => keepRecord since untl r.date_time

theorem keepRecord_eq_true_iff (since untl : Option Nat) (t : Nat) :
    keepRecord since untl t = true ↔
      (∀ s, since = some s → s < t) ∧ (∀ u, untl = some u → t < u) := by
  cases since <;> cases untl <;> simp [keepRecord]

/-! ## C6: file-level parse bounds are both exclusive -/

/-- C6: For every parsed log file (access or error) and optional bounds,
the file-level parse retains exactly the records whose timestamp is
strictly after `since` (when given) and strictly before `until` (when
given) — both bounds exclusive, so a record whose timestamp equals
either bound is excluded. -/
theorem parse_file_bounds_both_exclusive (arows : List AccessRecord)
    (erows : List ErrorRecord) (since untl : Option Nat) :
    (∀ r : AccessRecord, r ∈ access_parse_records arows since untl ↔
      r ∈ arows ∧ (∀ s, since = some s → s < r.date_time) ∧
        (∀ u, untl = some u → r.date_time < u)) ∧
    (∀ e : ErrorRecord, e ∈ error_parse_records erows since untl ↔
      e ∈ erows ∧ (∀ s, since = some s → s < e.date_time) ∧
        (∀ u, untl = some u → e.date_time < u)) := by
  constructor
  · intro r
    rw [access_parse_records, List.mem_filter, keepRecord_eq_true_iff]
  · intro e
    rw [error_parse_records, List.mem_filter, keepRecord_eq_true_iff]

/-! ## C8: decode tolerance of the file parsers -/

/-- Byte-level model of text decoding.  We model the single-byte
(ASCII) fragment of the file encoding: a byte below `0x80` decodes to
the corresponding character, a byte at or above `0x80` stands for a
byte at which strict decoding fails.  The concrete instances below use
the byte `0xFF`, which is undecodable at any position of real UTF-8. -/
def decodable (b : Nat) : Bool := decide (b < 128)

/-- Strict decoding of one line, as performed implicitly by iterating a
file opened in text mode with default (strict) error handling, as
`access.parse_file` does (`access.py` lines 66–68): any undecodable
byte raises, aborting the whole file. -/
def decodeStrict : List Nat → Option (List Char)
  | [] => some []
  | b :: bs =>
    if decodable b then (decodeStrict bs).map fun cs => Char.ofNat b :: cs
    else none

/-- U+FFFD, the replacement character substituted by
`bytes.decode(errors='replace')`. -/
def replacementChar : Char := Char.ofNat 0xFFFD

/-- Tolerant decoding of one line, as performed by
`line.decode(errors='replace')` in `error.parse_file`
(`error.py` lines 41–44): each undecodable byte is replaced by
`replacementChar` and decoding continues. -/
def decodeReplace (line : List Nat) : List Char :=
  line.map fun b => if decodable b then Char.ofNat b else replacementChar

/-- The line-reading stage of `access.parse_file`
(`access.py` lines 66–68): the file is opened in text mode, so every
line is decoded strictly; the first undecodable byte aborts the whole
file with a decoding error (modelled as `none`). -/
def access_read_lines : List (List Nat) → Option (List (List Char))
  | [] => some []
  | l :: ls =>
    match decodeStrict l with
    | none => none
    | some cs => (access_read_lines ls).map fun rest => cs :: rest

/-- The line-reading stage of `error.parse_file`
(`error.py` lines 41–44): the file is opened in binary mode and each
line is decoded with `errors='replace'`, so every line yields a string
and parsing continues through the whole file. -/
def error_read_lines (blines : List (List Nat)) : List (List Char) :=
  blines.map decodeReplace

theorem decodeStrict_eq_none_of_bad {line : List Nat} {b : Nat}
    (hb : b ∈ line) (hbad : decodable b = false) :
    decodeStrict line = none := by
  induction line with
  | nil => simp at hb
  | cons c cs ih =>
    rcases List.mem_cons.mp hb with h | h
    · subst h
      simp [decodeStrict, hbad]
    · by_cases hc : decodable c
      · simp [decodeStrict, hc, ih h]
      · simp [decodeStrict, hc]

/-- C8 (counterexample): on a one-line file consisting of the single
byte `0xFF`, the access-log file parse aborts with a decoding error
(`none`) instead of substituting a replacement and continuing, while
the error-log file parse of the same bytes substitutes the replacement
character; so decode tolerance does not hold for both parsers. -/
theorem access_read_lines_aborts_on_bad_byte :
    access_read_lines [[255]] = none ∧
    error_read_lines [[255]] = [[replacementChar]] := by
  constructor
  · rfl
  · rfl

/-- C8 (amended): file-level parsing with undecodable bytes substitutes
a replacement and continues in the error-log file parser only; the
access-log file parser reads the file in strict text mode, so a file
containing any undecodable byte aborts as a whole with a decoding
error. -/
theorem decode_tolerance_error_parser_only (blines : List (List Nat))
    (line : List Nat) (b : Nat) (hl : line ∈ blines) (hb : b ∈ line)
    (hbad : decodable b = false) :
    access_read_lines blines = none ∧
    replacementChar ∈ decodeReplace line ∧
    (error_read_lines blines).length = blines.length := by
  refine ⟨?_, ?_, ?_⟩
  · induction blines with
    | nil => simp at hl
    | cons l ls ih =>
      rcases List.mem_cons.mp hl with h | h
      · subst h
        simp [access_read_lines, decodeStrict_eq_none_of_bad hb hbad]
      · cases hdec : decodeStrict l with
        | none => simp [access_read_lines, hdec]
        | some cs => simp [access_read_lines, hdec, ih h]
  · exact List.mem_map.mpr ⟨b, hb, by simp [hbad]⟩
  · simp [error_read_lines]

/-- Witness for the amended C8 at a concrete two-line byte file. -/
theorem decode_tolerance_error_parser_only_witness :
    access_read_lines [[255], [104, 105]] = none ∧
    replacementChar ∈ decodeReplace [255] ∧
    (error_read_lines [[255], [104, 105]]).length = [[255], [104, 105]].length := by
  exact decode_tolerance_error_parser_only [[255], [104, 105]] [255] 255
    (by simp) (by simp) (by decide)

/-! ## C9: lock discipline of the store operations -/

/-- The atomic steps a store operation performs against the shared
cursor and lock. -/
inductive DbStep where
  | acquire
  | release
  | execute
  | fetch
deriving Repr, DecidableEq

/-- `DAO.sql_execute` (`contact.py` lines 121–123): acquires the lock,
runs `cursor.execute`, and releases the lock when the `with` block
ends. -/
def sql_execute_steps : List DbStep := [DbStep.acquire, DbStep.execute, DbStep.release]

/-- `DAO.sql_fetchall` (`contact.py` lines 125–127): a separate lock
acquisition around `cursor.fetchall`; `DAO.sql_fetchone`
(lines 129–131) is identical around `cursor.fetchone`. -/
def sql_fetchall_steps : List DbStep := [DbStep.acquire, DbStep.fetch, DbStep.release]

/-- The step trace of `DAO.get_messages` (`contact.py` lines 137–139):
`sql_execute` followed by `sql_fetchall`, each with its own lock
acquisition. -/
def get_messages_steps : List DbStep := sql_execute_steps ++ sql_fetchall_steps

/-- The step trace of `DAO.count_messages` (`contact.py`
lines 141–143): `sql_execute` followed by `sql_fetchone`. -/
def count_messages_steps : List DbStep := sql_execute_steps ++ sql_fetchall_steps

/-- The steps strictly between the first `execute` and the following
`fetch` in a trace. -/
def stepsBetweenExecuteAndFetch (tr : List DbStep) : List DbStep :=
  ((tr.dropWhile fun s => s ≠ DbStep.execute).drop 1).takeWhile fun s => s ≠ DbStep.fetch

/-- Whether the trace keeps the lock from statement execution through
result retrieval: no `release` occurs between the `execute` and the
`fetch`. -/
def holdsLockAcrossExecuteAndFetch (tr : List DbStep) : Bool :=
  !(stepsBetweenExecuteAndFetch tr).contains DbStep.release

/-- C9 (refuting theorem): the read operations of the store do NOT hold
the lock for the full duration of statement execution and result
retrieval — both `get_messages` and `count_messages` release the lock
after `execute` and re-acquire it before fetching, so another caller
can run its own statement on the shared cursor in between. -/
theorem store_lock_released_between_execute_and_fetch :
    holdsLockAcrossExecuteAndFetch get_messages_steps = false ∧
    holdsLockAcrossExecuteAndFetch count_messages_steps = false ∧
    stepsBetweenExecuteAndFetch get_messages_steps =
      [DbStep.release, DbStep.acquire] := by
  refine ⟨by decide, by decide, by decide⟩

/-! ## C10: argument routing from print_report to generate_report -/

/-- The argument tuple received by `generate_report`
(`report.py` lines 29–30), in its parameter order:
`(access_log, error_log, capsule_name, msg_db, since, until)`. -/
structure GenArgs where
  access_log : String
  error_log : String
  capsule_name : String
  msg_db : Option String
  since : Option Nat
  untl : Option Nat
deriving Repr, DecidableEq

/-- The call `print_report` makes (`report.py` lines 101–104):
`generate_report(access_log, error_log, msg_db, capsule_name, since,
until)` — its third positional argument `msg_db` lands in
`generate_report`'s third parameter `capsule_name`, and its fourth
positional argument `capsule_name` lands in the fourth parameter
`msg_db`. -/
def print_report_call (access_log error_log msg_db capsule_name : String)
    (since untl : Option Nat) : GenArgs :=
  ⟨access_log, error_log, msg_db, some capsule_name, since, untl⟩

/-- Modelled from the spec claim (the refinement target): the wrapper
routes each of its parameters to the `generate_report` parameter of the
same meaning — `msg_db` to `msg_db`, `capsule_name` to
`capsule_name`. -/
def same_meaning_call (access_log error_log msg_db capsule_name : String)
    (since untl : Option Nat) : GenArgs :=
  ⟨access_log, error_log, capsule_name, some msg_db, since, untl⟩

/-- C10 (refuting theorem): `print_report` does not route its parameters
to the `generate_report` parameters of the same meaning: at a concrete
call it passes its message-database path as the capsule name and its
capsule name as the message-database path. -/
theorem print_report_swaps_msg_db_and_capsule_name :
    (print_report_call "access.log" "error.log" "messages.db" "My Capsule"
        none none).capsule_name = "messages.db" ∧
    (print_report_call "access.log" "error.log" "messages.db" "My Capsule"
        none none).msg_db = some "My Capsule" ∧
    print_report_call "access.log" "error.log" "messages.db" "My Capsule" none none ≠
      same_meaning_call "access.log" "error.log" "messages.db" "My Capsule" none none := by
  refine ⟨rfl, rfl, by decide⟩

/-! ## C3: report counters that use pandas `.size` -/

/-- Python `str.startswith` (and pandas `.str.startswith`), computed on
the underlying character sequences. -/
def str_starts_with (s pre : String) : Bool :=
  pre.data.isPrefixOf s.data

/-- `pandas.DataFrame.size`: the number of elements of the underlying
two-dimensional block, i.e. row count times column count. -/
def dfSize (nrows ncols : Nat) : Nat := nrows * ncols

/-- Column count of the access-log DataFrame
(`access.py` line 65): `['date_time', 'ip_addr', 'resp_code', 'netloc',
'path', 'params', 'query', 'fragment', 'request_body']`. -/
def accessColumns : Nat := 9

/-- Column count of the error-log DataFrame (`error.py` line 40):
`['date_time', 'err_msg']`. -/
def errorColumns : Nat := 2

/-- The `Errors logged` value printed by `generate_report`
(`report.py` line 58): `error_df.size`. -/
def errors_logged_value (erecords : List ErrorRecord) : Nat :=
  dfSize erecords.length errorColumns

/-- The rows of `gemlog_df` in `generate_report`
(`report.py` lines 44–45 and 64–65): access records surviving the
`/remini` exclusion, with response code 20, whose path starts with
`/gemlog`. -/
def gemlog_records (records : List AccessRecord) : List AccessRecord :=
  ((records.filter fun r => !(str_starts_with r.path "/remini")).filter
      fun r => r.resp_code == 20).filter
    fun r => str_starts_with r.path "/gemlog"

/-- The `Total visits to gemlog` value printed by `generate_report`
(`report.py` line 81): `gemlog_df.size`. -/
def gemlog_visits_value (records : List AccessRecord) : Nat :=
  dfSize (gemlog_records records).length accessColumns

/-- The `Hits on atom feed` value printed by `generate_report`
(`report.py` line 68): the `.size` of `gemlog_df` restricted to the
path `/gemlog/posts/atom.xml`. -/
def atom_hits_value (records : List AccessRecord) : Nat :=
  dfSize ((gemlog_records records).filter
    fun r => r.path == "/gemlog/posts/atom.xml").length accessColumns

/-- C3 (refuting theorem): the three counters are element counts of a
two-dimensional structure, not record counts: with exactly one parsed
error record the report prints `Errors logged: 2` (one per column of
the two-column error frame), and with exactly one successful gemlog
request for the atom feed it prints `Total visits to gemlog: 9` and
`Hits on atom feed: 9` (one per column of the nine-column access
frame), each overcounting the single record by the column count. -/
theorem report_size_counters_overcount :
    errors_logged_value [⟨100, "some error"⟩] = 2 ∧
    gemlog_visits_value [⟨100, "127.0.0.1", 20, "example.org",
      "/gemlog/posts/atom.xml", "", "", "", "gemini://example.org/gemlog/posts/atom.xml"⟩] = 9 ∧
    atom_hits_value [⟨100, "127.0.0.1", 20, "example.org",
      "/gemlog/posts/atom.xml", "", "", "", "gemini://example.org/gemlog/posts/atom.xml"⟩] = 9 ∧
    [(⟨100, "some error"⟩ : ErrorRecord)].length = 1 := by
  refine ⟨rfl, ?_, ?_, rfl⟩ <;> decide

/-! ## C7: the response-code breakdown of the report -/

/-- `RESP_CODE_DESC` (`report.py` lines 7–26): the fixed table mapping
each response code to its human-readable label. -/
def RESP_CODE_DESC : List (Nat × String) :=
  [(10, "INPUT"), (11, "SENSITIVE INPUT"), (20, "SUCCESS"),
   (30, "REDIRECT - TEMPORARY"), (31, "REDIRECT - PERMANENT"),
   (40, "TEMPORARY FAILURE"), (41, "SERVER UNAVAILABLE"), (42, "CGI ERROR"),
   (43, "PROXY ERROR"), (44, "SLOW DOWN"), (50, "PERMANENT FAILURE"),
   (51, "NOT FOUND"), (52, "GONE"), (53, "PROXY REQUEST REFUSED"),
   (59, "BAD REQUEST"), (60, "CLIENT CERTIFICATE REQUIRED"),
   (61, "CERTIFICATE NOT AUTHORISED"), (62, "CERTIFICATE NOT VALID")]

/-- `RESP_CODE_DESC.get(r, "[NO DESCRIPTION]")` (`report.py` line 62):
table lookup with the explicit no-description fallback. -/
def respCodeDesc (c : Nat) : String :=
  match RESP_CODE_DESC.find? fun p => p.1 == c with
  | some p => p.2
  | none => "[NO DESCRIPTION]"

/-- Round half to even on rationals, the rounding mode of numpy's
`round` used by `pandas.Series.round(2)` (`report.py` line 54); the
Python floats are modelled as exact rationals. -/
def roundHalfEven (q : ℚ) : ℤ :=
  if q - ⌊q⌋ < 1 / 2 then ⌊q⌋
  else if (1 : ℚ) / 2 < q - ⌊q⌋ then ⌊q⌋ + 1
  else if ⌊q⌋ % 2 = 0 then ⌊q⌋ else ⌊q⌋ + 1

/-- `.round(2)`: round to 2 decimal places. -/
def round2 (q : ℚ) : ℚ :=
  (roundHalfEven (q * 100) : ℚ) / 100

/-- The response codes in order of first appearance in the parsed
records. -/
def observed_codes (records : List AccessRecord) : List Nat :=
  records.foldl
    (fun acc r => if r.resp_code ∈ acc then acc else acc ++ [r.resp_code]) []

/-- Stable descending insertion by occurrence count: the new pair goes
after every existing pair with an equal or larger count. -/
def insertDesc (x : Nat × Nat) : List (Nat × Nat) → List (Nat × Nat)
  | [] => [x]
  | y :: ys => if x.2 ≤ y.2 then y :: insertDesc x ys else x :: y :: ys

/-- Stable sort of a count table by descending count. -/
def sortCountDesc (l : List (Nat × Nat)) : List (Nat × Nat) :=
  l.foldl (fun acc x => insertDesc x acc) []

/-- Modelled from the spec: `generate_report` (`report.py` line 53)
calls `access.resp_code_freq`, but no such function exists in
`logstats/access.py`; per §3 an aggregate table (here
frequency-by-response-code) maps each key to its occurrence count,
sorted by descending count with ties broken by first-encountered
order. -/
def resp_code_freq (records : List AccessRecord) : List (Nat × Nat) :=
  sortCountDesc ((observed_codes records).map fun c =>
    (c, (records.map AccessRecord.resp_code).count c))

/-- The data of one line of the response-code breakdown
(`report.py` line 62): code, label, raw count, and percentage. -/
structure RespCodeEntry where
  code : Nat
  desc : String
  cnt : Nat
  pct : ℚ
deriving Repr, DecidableEq

/-- The response-code breakdown emitted by `generate_report`
(`report.py` lines 51–62): one entry per frequency-table row, with the
label from `RESP_CODE_DESC` (with fallback), the raw count, and
`((count / total) * 100).round(2)` where `total` is the row count of
the period's access records. -/
def respCodeLines (records : List AccessRecord) : List RespCodeEntry :=
  (resp_code_freq records).map fun p =>
    ⟨p.1, respCodeDesc p.1, p.2,
      round2 ((p.2 : ℚ) / (records.length : ℚ) * 100)⟩

theorem mem_insertDesc {a x : Nat × Nat} {l : List (Nat × Nat)} :
    a ∈ insertDesc x l ↔ a = x ∨ a ∈ l := by
  induction l with
  | nil => simp [insertDesc]
  | cons y ys ih =>
    by_cases hx : x.2 ≤ y.2
    · simp only [insertDesc, if_pos hx, List.mem_cons, ih]
      tauto
    · simp only [insertDesc, if_neg hx, List.mem_cons]

theorem pairwise_insertDesc {x : Nat × Nat} {l : List (Nat × Nat)}
    (h : l.Pairwise fun a b => b.2 ≤ a.2) :
    (insertDesc x l).Pairwise fun a b => b.2 ≤ a.2 := by
  induction l with
  | nil => simp [insertDesc]
  | cons y ys ih =>
    rw [List.pairwise_cons] at h
    by_cases hx : x.2 ≤ y.2
    · rw [insertDesc]
      simp only [hx, if_true]
      rw [List.pairwise_cons]
      refine ⟨?_, ih h.2⟩
      intro z hz
      rcases mem_insertDesc.mp hz with rfl | hz
      · exact hx
      · exact h.1 z hz
    · rw [insertDesc]
      simp only [hx, if_false]
      rw [List.pairwise_cons]
      refine ⟨?_, List.pairwise_cons.mpr h⟩
      intro z hz
      rcases List.mem_cons.mp hz with rfl | hz
      · omega
      · have := h.1 z hz
        omega

theorem mem_foldl_insertDesc (l : List (Nat × Nat)) :
    ∀ (acc : List (Nat × Nat)) (a : Nat × Nat),
      a ∈ l.foldl (fun acc x => insertDesc x acc) acc ↔ a ∈ acc ∨ a ∈ l := by
  induction l with
  | nil => simp
  | cons x xs ih =>
    intro acc a
    rw [List.foldl_cons, ih, mem_insertDesc]
    simp
    tauto

theorem mem_sortCountDesc {a : Nat × Nat} {l : List (Nat × Nat)} :
    a ∈ sortCountDesc l ↔ a ∈ l := by
  rw [sortCountDesc, mem_foldl_insertDesc]
  simp

theorem pairwise_sortCountDesc (l : List (Nat × Nat)) :
    (sortCountDesc l).Pairwise fun a b => b.2 ≤ a.2 := by
  rw [sortCountDesc]
  have : ∀ (acc : List (Nat × Nat)), (acc.Pairwise fun a b => b.2 ≤ a.2) →
      (l.foldl (fun acc x => insertDesc x acc) acc).Pairwise fun a b => b.2 ≤ a.2 := by
    induction l with
    | nil => intro acc h; exact h
    | cons x xs ih =>
      intro acc h
      exact ih _ (pairwise_insertDesc h)
  exact this [] List.Pairwise.nil

theorem mem_observed_codes {records : List AccessRecord} {c : Nat} :
    c ∈ observed_codes records ↔ c ∈ records.map AccessRecord.resp_code := by
  have aux : ∀ (rs : List AccessRecord) (acc : List Nat) (c : Nat),
      c ∈ rs.foldl (fun acc r => if r.resp_code ∈ acc then acc else acc ++ [r.resp_code]) acc ↔
        c ∈ acc ∨ c ∈ rs.map AccessRecord.resp_code := by
    intro rs
    induction rs with
    | nil => simp
    | cons r rest ih =>
      intro acc c
      rw [List.foldl_cons, ih]
      by_cases hmem : r.resp_code ∈ acc
      · simp only [hmem, if_true, List.map_cons, List.mem_cons]
        constructor
        · tauto
        · rintro (h | rfl | h) <;> tauto
      · simp only [hmem, if_false, List.mem_append, List.mem_singleton,
          List.map_cons, List.mem_cons]
        tauto
  rw [observed_codes, aux]
  simp

/-- C7: The report's response-code breakdown lists every response code
observed in the period (and nothing else), in descending order of
frequency, and each entry carries the label from the fixed
code-to-description table (with the explicit `[NO DESCRIPTION]`
fallback for codes absent from the table), the raw occurrence count of
the code, and that count's percentage of the total request count
rounded to 2 decimal places. -/
theorem resp_code_breakdown_correct (records : List AccessRecord) :
    (∀ c, c ∈ (respCodeLines records).map RespCodeEntry.code ↔
      c ∈ records.map AccessRecord.resp_code) ∧
    ((respCodeLines records).Pairwise fun a b => b.cnt ≤ a.cnt) ∧
    (∀ e ∈ respCodeLines records,
      ((e.code, e.desc) ∈ RESP_CODE_DESC ∨
        (e.desc = "[NO DESCRIPTION]" ∧ ∀ s, (e.code, s) ∉ RESP_CODE_DESC)) ∧
      e.cnt = (records.map AccessRecord.resp_code).count e.code ∧
      e.pct = round2 ((e.cnt : ℚ) / (records.length : ℚ) * 100)) := by
  refine ⟨?_, ?_, ?_⟩
  · intro c
    simp only [respCodeLines, resp_code_freq, List.map_map, List.mem_map,
      Function.comp]
    constructor
    · rintro ⟨p, hp, rfl⟩
      have hp' := mem_sortCountDesc.mp hp
      rcases List.mem_map.mp hp' with ⟨c', hc', rfl⟩
      exact List.mem_map.mp (mem_observed_codes.mp hc')
    · intro hc
      refine ⟨(c, (records.map AccessRecord.resp_code).count c), ?_, rfl⟩
      exact mem_sortCountDesc.mpr
        (List.mem_map.mpr ⟨c, mem_observed_codes.mpr (List.mem_map.mpr hc), rfl⟩)
  · rw [respCodeLines, List.pairwise_map]
    exact pairwise_sortCountDesc _
  · intro e he
    rcases List.mem_map.mp he with ⟨p, hp, rfl⟩
    have hp' := mem_sortCountDesc.mp hp
    rcases List.mem_map.mp hp' with ⟨c, _, rfl⟩
    refine ⟨?_, rfl, rfl⟩
    simp only [respCodeDesc]
    cases hfind : RESP_CODE_DESC.find? fun p => p.1 == c with
    | some pr =>
      left
      have hmem := List.mem_of_find?_eq_some hfind
      have hpr := List.find?_some hfind
      have hc : pr.1 = c := by simpa using hpr
      simpa [hfind, ← hc] using hmem
    | none =>
      right
      refine ⟨by simp [hfind], ?_⟩
      intro s hs
      have := List.find?_eq_none.mp hfind (c, s) hs
      simp at this

end Mollymon
